import Mathlib

/-!
Shallow embedding of the CwaWeather backend (src/server.js).

The repository is a small Express façade over the CWA 36-hour forecast API.
The parts the claims are about:
  * `CITY_MAP` (server.js lines 19-26): the city-key → locale-name table;
  * `getWeatherData` (lines 32-108): credential check, upstream call,
    location lookup, and the normalization loop over weather elements;
  * `getCityWeather` (lines 113-142): the per-city handler with its
    catch-block error mapping.

JavaScript specifics modelled explicitly:
  * falsiness of strings (`!CWA_API_KEY`, `x || fallback`) via `isFalsy` / `jsOr`;
  * out-of-bounds array indexing yields `undefined`, and reading a property of
    `undefined` throws a TypeError; we model each such read site with an
    `Except` error carrying a fixed message constant (the exact TypeError text
    is runtime-specific, so the constants are abstract but pairwise distinct);
  * `CITY_MAP[k]` on an unknown key is `undefined`; interpolating `undefined`
    into a template literal produces the text "undefined";
  * the network call (`axios.get`) is a parameter: it either returns a body
    (`RawResponse`) or throws an error that may carry an HTTP response.
-/

namespace Cwa

/-- `element.time[i].parameter` object of the upstream payload; the code reads
only its `parameterName` field. -/
structure Parameter where
  parameterName : String
deriving DecidableEq

/-- One entry of a weather element's `time` series. -/
structure TimeEntry where
  startTime : String
  endTime : String
  parameter : Parameter
deriving DecidableEq

/-- One upstream weather element: a code (`elementName`) plus its time series. -/
structure WeatherElement where
  elementName : String
  time : List TimeEntry
deriving DecidableEq

/-- One record of `records.location`. -/
structure LocationData where
  locationName : String
  weatherElement : List WeatherElement
deriving DecidableEq

/-- The `records` object of the upstream body. -/
structure Records where
  datasetDescription : String
  location : List LocationData
deriving DecidableEq

/-- The upstream response body (`response.data` in the code). -/
structure RawResponse where
  records : Records
deriving DecidableEq

/-- Body attached to an axios error response (`error.response.data`); the code
reads its `message` field (possibly absent) and forwards the body verbatim as
`details`.  `extra` stands for all other fields, carried through untouched. -/
structure UpstreamBody where
  message : Option String
  extra : List (String × String)
deriving DecidableEq

/-- A thrown JS error, as the catch block distinguishes them: either a plain
`Error` (only a message) or an axios error carrying `error.response` with an
HTTP status and a body. -/
inductive JsError where
  | plain (message : String)
  | withResponse (message : String) (status : Nat) (body : UpstreamBody)
deriving DecidableEq

/-- The per-interval record built by the loop (server.js lines 69-78). -/
structure Forecast where
  startTime : String
  endTime : String
  weather : String
  rain : String
  minTemp : String
  maxTemp : String
  comfort : String
  windSpeed : String
deriving DecidableEq

/-- The normalized document returned by `getWeatherData` (lines 58-62). -/
structure WeatherData where
  city : String
  updateTime : String
  forecasts : List Forecast
deriving DecidableEq

/-- JS falsiness of a possibly-absent string (`!CWA_API_KEY`):
`undefined` and the empty string are falsy. -/
def isFalsy : Option String → Bool
  | none => true
  | some s => s == ""

/-- JS `x || fallback` for a possibly-absent string `x`. -/
def jsOr : Option String → String → String
  | none, d => d
  | some s, d => if s == "" then d else s

/-- Message of the error thrown when the API key is not set (line 35). -/
def missingKeyMsg : String := "請在 .env 檔案中設定 CWA_API_KEY"

/-- Stand-in for the TypeError thrown by `weatherElements[0].time` when the
element list is empty (line 66). -/
def cannotReadTimeMsg : String :=
  "TypeError: cannot read properties of undefined (reading time)"

/-- Stand-in for the TypeError thrown by `element.time[i].parameter` when the
element's series has no entry at index `i` (line 81). -/
def cannotReadParameterMsg : String :=
  "TypeError: cannot read properties of undefined (reading parameter)"

/-- Stand-in for the TypeError thrown by `weatherElements[0].time[i].startTime`
were index `i` out of bounds (line 70; unreachable from the loop). -/
def cannotReadStartTimeMsg : String :=
  "TypeError: cannot read properties of undefined (reading startTime)"

/-- The city table, server.js lines 19-26.  Lookup of an unknown key is
`undefined`, modelled as `none`. -/
def CITY_MAP : String → Option String := fun cityKey =>
  match cityKey with
  | "taipei" => some "臺北市"
  | "newtaipei" => some "新北市"
  | "taoyuan" => some "桃園市"
  | "taichung" => some "臺中市"
  | "tainan" => some "臺南市"
  | "kaohsiung" => some "高雄市"
  | _ => none

/-- The six route-bound city keys (lines 173-178). -/
def cityKeys : List String :=
  ["taipei", "newtaipei", "taoyuan", "taichung", "tainan", "kaohsiung"]

/-- Element codes handled by the switch (lines 82-101). -/
def recognizedCode (c : String) : Bool :=
  c == "Wx" || c == "PoP" || c == "MinT" || c == "MaxT" || c == "CI" || c == "WS"

/-- The switch of lines 82-101: dispatch on the element code, assigning the
parameter value `v` into the matching field; unrecognized codes fall through
leaving the record unchanged. -/
def applyCode (f : Forecast) (code v : String) : Forecast :=
  match code with
  | "Wx" => { f with weather := v }
  | "PoP" => { f with rain := v ++ "%" }
  | "MinT" => { f with minTemp := v ++ "°C" }
  | "MaxT" => { f with maxTemp := v ++ "°C" }
  | "CI" => { f with comfort := v }
  | "WS" => { f with windSpeed := v }
  | _ => f

/-- One iteration of the `forEach` body (lines 80-102): read
`element.time[i].parameter` (throws if the entry is missing), then dispatch. -/
def applyElement (i : Nat) (f : Forecast) (e : WeatherElement) : Except String Forecast :=
  match e.time[i]? with
  | none => .error cannotReadParameterMsg
  | some t => .ok (applyCode f e.elementName t.parameter.parameterName)

/-- The `forEach` over all weather elements at interval `i`; a throw inside
the callback aborts the iteration. -/
def processElems (i : Nat) : List WeatherElement → Forecast → Except String Forecast
  | [], f => .ok f
  | e :: rest, f =>
    match applyElement i f e with
    | .error m => .error m
    | .ok f1 => processElems i rest f1

/-- The fresh record of lines 69-78: start/end from the first element's `i`-th
entry, all six semantic fields initialized to the empty string. -/
def initForecast (e0 : WeatherElement) (i : Nat) : Except String Forecast :=
  match e0.time[i]? with
  | none => .error cannotReadStartTimeMsg
  | some t0 =>
    .ok { startTime := t0.startTime, endTime := t0.endTime,
          weather := "", rain := "", minTemp := "", maxTemp := "",
          comfort := "", windSpeed := "" }

/-- One iteration of the `for` loop body (lines 68-105). -/
def processInterval (we : List WeatherElement) (e0 : WeatherElement) (i : Nat) :
    Except String Forecast :=
  match initForecast e0 i with
  | .error m => .error m
  | .ok f => processElems i we f

/-- The `for` loop over the interval indices, pushing each completed record in
order; the first throw aborts the loop. -/
def forIntervals (we : List WeatherElement) (e0 : WeatherElement) :
    List Nat → Except String (List Forecast)
  | [] => .ok []
  | i :: rest =>
    match processInterval we e0 i with
    | .error m => .error m
    | .ok f =>
      match forIntervals we e0 rest with
      | .error m => .error m
      | .ok fs => .ok (f :: fs)

/-- Lines 64-105: take the first weather element (reading `.time` of
`undefined` throws when the list is empty), let `timeCount` be the length of
its series, and run the loop for indices `0 .. timeCount-1`. -/
def normalizeForecasts (we : List WeatherElement) : Except String (List Forecast) :=
  match we[0]? with
  | none => .error cannotReadTimeMsg
  | some e0 => forIntervals we e0 (List.range e0.time.length)

/-- `getWeatherData` (lines 32-108).  The upstream call is the `transport`
parameter: `.ok body` models a 2xx axios result, `.error e` a rejection. -/
def getWeatherData (apiKey : Option String) (cityName : String)
    (transport : Except JsError RawResponse) : Except JsError WeatherData :=
  if isFalsy apiKey then .error (.plain missingKeyMsg)
  else
    match transport with
    | .error e => .error e
    | .ok response =>
      match response.records.location[0]? with
      | none => .error (.plain ("無法取得" ++ cityName ++ "天氣資料"))
      | some locationData =>
        match normalizeForecasts locationData.weatherElement with
        | .error m => .error (.plain m)
        | .ok fs =>
          .ok { city := locationData.locationName,
                updateTime := response.records.datasetDescription,
                forecasts := fs }

/-- Body of an HTTP response sent by the handler: the success envelope
(line 119-122) or an error envelope (`details` present only on the upstream
branch, lines 128-132). -/
inductive ResponseBody where
  | success (data : WeatherData)
  | failure (error : String) (message : String) (details : Option UpstreamBody)
deriving DecidableEq

/-- One `res.status(..).json(..)` call. -/
structure HttpResponse where
  status : Nat
  body : ResponseBody
deriving DecidableEq

/-- The catch block of lines 123-140 as a function of the caught error:
an error carrying `error.response` is passed through with the upstream status
and body; any other error becomes a 500 with the generic-server tag. -/
def mapError : JsError → HttpResponse
  | .withResponse _ status body =>
    ⟨status, .failure "CWA API 錯誤" (jsOr body.message "無法取得天氣資料") (some body)⟩
  | .plain msg =>
    ⟨500, .failure "伺服器錯誤" (jsOr (some msg) "無法取得天氣資料,請稍後再試") none⟩

/-- The handler produced by `getCityWeather(cityKey)` (lines 113-142), as the
list of responses it sends for one request (the early `return` on the upstream
branch makes it exactly one).  `CITY_MAP[cityKey]` being `undefined` for an
unknown key turns into the string "undefined" inside the template literal. -/
def getCityWeather (cityKey : String) (apiKey : Option String)
    (transport : Except JsError RawResponse) : List HttpResponse :=
  match getWeatherData apiKey ((CITY_MAP cityKey).getD "undefined") transport with
  | .ok w => [⟨200, .success w⟩]
  | .error e => [mapError e]

/-- Value held by the element with code `c` at interval `i`: the first element
named `c` (unique when codes are distinct), if its series has an entry there. -/
def codeVal (we : List WeatherElement) (c : String) (i : Nat) : Option String :=
  match we with
  | [] => none
  | e :: rest =>
    if e.elementName == c then (e.time[i]?).map (fun t => t.parameter.parameterName)
    else codeVal rest c i

/-- The upstream alignment invariant (spec §3): all elements share one
interval count and the same start/end boundaries at each index. -/
def aligned (we : List WeatherElement) : Prop :=
  ∀ e ∈ we, ∀ e2 ∈ we, e.time.length = e2.time.length ∧
    ∀ i, i < e.time.length →
      (e.time[i]?).map TimeEntry.startTime = (e2.time[i]?).map TimeEntry.startTime ∧
      (e.time[i]?).map TimeEntry.endTime = (e2.time[i]?).map TimeEntry.endTime

instance : DecidablePred aligned := fun we => by
  unfold aligned
  infer_instance

/-! ### Helper lemmas about the per-interval element fold -/

lemma processElems_ok_of (i : Nat) :
    ∀ (we : List WeatherElement) (f : Forecast),
      (∀ e ∈ we, ∃ t, e.time[i]? = some t) →
      ∃ g, processElems i we f = .ok g := by
  intro we
  induction we with
  | nil => intro f _; exact ⟨f, rfl⟩
  | cons e rest ih =>
    intro f hall
    obtain ⟨t, ht⟩ := hall e (List.mem_cons_self e rest)
    obtain ⟨g, hg⟩ := ih (applyCode f e.elementName t.parameter.parameterName)
      (fun e2 h2 => hall e2 (List.mem_cons_of_mem e h2))
    exact ⟨g, by simp [processElems, applyElement, ht, hg]⟩

lemma processElems_error_of (i : Nat) :
    ∀ (we : List WeatherElement) (f : Forecast),
      (∃ e ∈ we, e.time[i]? = none) →
      processElems i we f = .error cannotReadParameterMsg := by
  intro we
  induction we with
  | nil => intro f h; simp at h
  | cons e rest ih =>
    intro f ⟨e2, hmem, hnone⟩
    rcases List.mem_cons.mp hmem with heq | hmem2
    · subst heq; simp [processElems, applyElement, hnone]
    · cases ht : e.time[i]? with
      | none => simp [processElems, applyElement, ht]
      | some t =>
        simp [processElems, applyElement, ht]
        exact ih _ ⟨e2, hmem2, hnone⟩

lemma processElems_error_val (i : Nat) :
    ∀ (we : List WeatherElement) (f : Forecast) (m : String),
      processElems i we f = .error m → m = cannotReadParameterMsg := by
  intro we
  induction we with
  | nil => intro f m h; simp [processElems] at h
  | cons e rest ih =>
    intro f m h
    cases ht : e.time[i]? with
    | none => simp [processElems, applyElement, ht] at h; exact h.symm
    | some t =>
      simp [processElems, applyElement, ht] at h
      exact ih _ _ h

lemma processElems_pres (P : Forecast → Prop) (i : Nat) :
    ∀ (we : List WeatherElement) (f g : Forecast),
      (∀ (f2 : Forecast) (e : WeatherElement) (t : TimeEntry), e ∈ we →
        e.time[i]? = some t → P f2 →
        P (applyCode f2 e.elementName t.parameter.parameterName)) →
      P f → processElems i we f = .ok g → P g := by
  intro we
  induction we with
  | nil => intro f g _ hf h; simp [processElems] at h; exact h ▸ hf
  | cons e rest ih =>
    intro f g hstep hf h
    cases ht : e.time[i]? with
    | none => simp [processElems, applyElement, ht] at h
    | some t =>
      simp [processElems, applyElement, ht] at h
      exact ih _ _ (fun f2 e2 t2 hm => hstep f2 e2 t2 (List.mem_cons_of_mem e hm))
        (hstep f e t (List.mem_cons_self e rest) ht hf) h

lemma processElems_establish (P : Forecast → Prop) (i : Nat) :
    ∀ (we : List WeatherElement) (f g : Forecast),
      (∀ (f2 : Forecast) (e : WeatherElement) (t : TimeEntry), e ∈ we →
        e.time[i]? = some t → P f2 →
        P (applyCode f2 e.elementName t.parameter.parameterName)) →
      (∃ e ∈ we, ∀ (f2 : Forecast) (t : TimeEntry), e.time[i]? = some t →
        P (applyCode f2 e.elementName t.parameter.parameterName)) →
      processElems i we f = .ok g → P g := by
  intro we
  induction we with
  | nil => intro f g _ hex _; simp at hex
  | cons e rest ih =>
    intro f g hstep ⟨e2, hmem, hset⟩ h
    cases ht : e.time[i]? with
    | none => simp [processElems, applyElement, ht] at h
    | some t =>
      simp [processElems, applyElement, ht] at h
      rcases List.mem_cons.mp hmem with heq | hmem2
      · refine processElems_pres P i rest _ g
          (fun f2 e3 t3 hm => hstep f2 e3 t3 (List.mem_cons_of_mem _ hm)) ?_ h
        exact (heq ▸ hset) f t ht
      · exact ih _ _ (fun f2 e3 t3 hm => hstep f2 e3 t3 (List.mem_cons_of_mem e hm))
          ⟨e2, hmem2, hset⟩ h

deriving instance DecidableEq for Except

/-! ### Concrete demo inputs used to evaluate the model -/

/-- A location record for 高雄市 with one complete interval. -/
def kaoLoc : LocationData := ⟨"高雄市", [⟨"Wx", [⟨"s1", "e1", ⟨"晴"⟩⟩]⟩]⟩

/-- An upstream body whose only location record is 高雄市. -/
def kaoResp : RawResponse := ⟨⟨"desc", [kaoLoc]⟩⟩

/-- An upstream body with an empty location collection. -/
def emptyResp : RawResponse := ⟨⟨"d", []⟩⟩

/-- An upstream body whose matched record has no weather elements. -/
def emptyElemResp : RawResponse := ⟨⟨"d", [⟨"臺北市", []⟩]⟩⟩

/-- All six recognized codes, one interval each, with an empty Wx value. -/
def sixElems : List WeatherElement :=
  [⟨"Wx", [⟨"s1", "e1", ⟨""⟩⟩]⟩,
   ⟨"PoP", [⟨"s1", "e1", ⟨"30"⟩⟩]⟩,
   ⟨"MinT", [⟨"s1", "e1", ⟨"20"⟩⟩]⟩,
   ⟨"MaxT", [⟨"s1", "e1", ⟨"25"⟩⟩]⟩,
   ⟨"CI", [⟨"s1", "e1", ⟨"舒適"⟩⟩]⟩,
   ⟨"WS", [⟨"s1", "e1", ⟨"3"⟩⟩]⟩]

/-- All six recognized codes, one interval each, all values non-empty. -/
def sixGood : List WeatherElement :=
  [⟨"Wx", [⟨"s1", "e1", ⟨"晴"⟩⟩]⟩,
   ⟨"PoP", [⟨"s1", "e1", ⟨"30"⟩⟩]⟩,
   ⟨"MinT", [⟨"s1", "e1", ⟨"20"⟩⟩]⟩,
   ⟨"MaxT", [⟨"s1", "e1", ⟨"25"⟩⟩]⟩,
   ⟨"CI", [⟨"s1", "e1", ⟨"舒適"⟩⟩]⟩,
   ⟨"WS", [⟨"s1", "e1", ⟨"3"⟩⟩]⟩]

/-- An upstream body whose matched record carries `sixGood`. -/
def goodResp : RawResponse := ⟨⟨"desc", [⟨"臺北市", sixGood⟩]⟩⟩

/-- Two Wx elements with identical boundaries but different values. -/
def wxA : WeatherElement := ⟨"Wx", [⟨"s1", "e1", ⟨"晴"⟩⟩]⟩

/-- Second duplicate-code element, same boundaries as `wxA`. -/
def wxB : WeatherElement := ⟨"Wx", [⟨"s1", "e1", ⟨"雨"⟩⟩]⟩

/-- A PoP element aligned with `wxA`. -/
def popC : WeatherElement := ⟨"PoP", [⟨"s1", "e1", ⟨"30"⟩⟩]⟩

/-- A Wx element with two intervals. -/
def wx2 : WeatherElement := ⟨"Wx", [⟨"s1", "e1", ⟨"晴"⟩⟩, ⟨"s2", "e2", ⟨"雨"⟩⟩]⟩

/-- An unrecognized element ("UVI") with a single interval. -/
def uvi1 : WeatherElement := ⟨"UVI", [⟨"s1", "e1", ⟨"5"⟩⟩]⟩

/-- An upstream body whose matched record holds `wx2` and the shorter `uvi1`. -/
def shortResp : RawResponse := ⟨⟨"desc", [⟨"臺北市", [wx2, uvi1]⟩]⟩⟩

/-! ### Field-dispatch lemmas -/

lemma applyCode_startTime (f : Forecast) (c v : String) :
    (applyCode f c v).startTime = f.startTime := by
  unfold applyCode; split <;> rfl

lemma applyCode_endTime (f : Forecast) (c v : String) :
    (applyCode f c v).endTime = f.endTime := by
  unfold applyCode; split <;> rfl

lemma applyCode_unrec (f : Forecast) (c v : String)
    (h : recognizedCode c = false) : applyCode f c v = f := by
  unfold applyCode
  split <;> simp_all [recognizedCode]

lemma codeVal_of_not_mem (c : String) (i : Nat) :
    ∀ we : List WeatherElement, (∀ e ∈ we, e.elementName ≠ c) →
      codeVal we c i = none := by
  intro we
  induction we with
  | nil => intro _; rfl
  | cons e rest ih =>
    intro h
    have he := h e (List.mem_cons_self e rest)
    simp [codeVal, beq_iff_eq, he]
    exact ih (fun e2 h2 => h e2 (List.mem_cons_of_mem e h2))

lemma codeVal_of_mem_nodup (c : String) (i : Nat) :
    ∀ (we : List WeatherElement) (e : WeatherElement),
      (we.map WeatherElement.elementName).Nodup → e ∈ we → e.elementName = c →
      codeVal we c i = (e.time[i]?).map (fun t => t.parameter.parameterName) := by
  intro we
  induction we with
  | nil => intro e _ h _; simp at h
  | cons e1 rest ih =>
    intro e hnd hmem hc
    obtain ⟨hnotmem, hnd2⟩ :
        (∀ x ∈ rest, ¬x.elementName = e1.elementName) ∧
          (List.map WeatherElement.elementName rest).Nodup := by simpa using hnd
    rcases List.mem_cons.mp hmem with heq | hmem2
    · subst heq
      simp [codeVal, beq_iff_eq, hc]
    · have hne : e1.elementName ≠ c := by
        intro hEq
        exact hnotmem e hmem2 (hc.trans hEq.symm)
      simp [codeVal, beq_iff_eq, hne]
      exact ih e hnd2 hmem2 hc

lemma codeVal_perm (c : String) (i : Nat) (we we2 : List WeatherElement)
    (hperm : we.Perm we2) (hnd : (we.map WeatherElement.elementName).Nodup) :
    codeVal we c i = codeVal we2 c i := by
  have hnd2 : (we2.map WeatherElement.elementName).Nodup :=
    ((hperm.map WeatherElement.elementName).nodup_iff).mp hnd
  by_cases hex : ∃ e ∈ we, e.elementName = c
  · obtain ⟨e, hmem, hc⟩ := hex
    rw [codeVal_of_mem_nodup c i we e hnd hmem hc,
      codeVal_of_mem_nodup c i we2 e hnd2 (hperm.mem_iff.mp hmem) hc]
  · push_neg at hex
    rw [codeVal_of_not_mem c i we hex,
      codeVal_of_not_mem c i we2 (fun e h2 => hex e (hperm.mem_iff.mpr h2))]

/-- Functional characterization of the element fold when element codes are
pairwise distinct: each semantic field holds the value of its code's unique
element (suffixed where the switch appends a unit), start/end are untouched. -/
lemma processElems_canon (i : Nat) :
    ∀ (we : List WeatherElement) (f g : Forecast),
      (we.map WeatherElement.elementName).Nodup →
      processElems i we f = .ok g →
      g = { startTime := f.startTime, endTime := f.endTime,
            weather := (codeVal we "Wx" i).getD f.weather,
            rain := ((codeVal we "PoP" i).map (fun v => v ++ "%")).getD f.rain,
            minTemp := ((codeVal we "MinT" i).map (fun v => v ++ "°C")).getD f.minTemp,
            maxTemp := ((codeVal we "MaxT" i).map (fun v => v ++ "°C")).getD f.maxTemp,
            comfort := (codeVal we "CI" i).getD f.comfort,
            windSpeed := (codeVal we "WS" i).getD f.windSpeed } := by
  intro we
  induction we with
  | nil =>
    intro f g _ h
    simp [processElems] at h
    subst h
    simp [codeVal]
  | cons e rest ih =>
    intro f g hnd hok
    obtain ⟨hnotmem, hnd2⟩ :
        (∀ x ∈ rest, ¬x.elementName = e.elementName) ∧
          (List.map WeatherElement.elementName rest).Nodup := by simpa using hnd
    cases ht : e.time[i]? with
    | none => simp [processElems, applyElement, ht] at hok
    | some t =>
      simp [processElems, applyElement, ht] at hok
      have hg := ih (applyCode f e.elementName t.parameter.parameterName) g hnd2 hok
      have hnone : ∀ c : String, e.elementName = c → codeVal rest c i = none := by
        intro c hc
        exact codeVal_of_not_mem c i rest
          (fun e2 h2 hEq => hnotmem e2 h2 (hEq.trans hc.symm))
      by_cases h1 : e.elementName = "Wx"
      · rw [hg]
        simp [codeVal, beq_iff_eq, applyCode, h1, ht, hnone "Wx" h1]
      · by_cases h2 : e.elementName = "PoP"
        · rw [hg]
          simp [codeVal, beq_iff_eq, applyCode, h2, ht, hnone "PoP" h2]
        · by_cases h3 : e.elementName = "MinT"
          · rw [hg]
            simp [codeVal, beq_iff_eq, applyCode, h3, ht, hnone "MinT" h3]
          · by_cases h4 : e.elementName = "MaxT"
            · rw [hg]
              simp [codeVal, beq_iff_eq, applyCode, h4, ht, hnone "MaxT" h4]
            · by_cases h5 : e.elementName = "CI"
              · rw [hg]
                simp [codeVal, beq_iff_eq, applyCode, h5, ht, hnone "CI" h5]
              · by_cases h6 : e.elementName = "WS"
                · rw [hg]
                  simp [codeVal, beq_iff_eq, applyCode, h6, ht, hnone "WS" h6]
                · have hrec : recognizedCode e.elementName = false := by
                    simp [recognizedCode, beq_iff_eq, h1, h2, h3, h4, h5, h6]
                  rw [hg, applyCode_unrec f e.elementName _ hrec]
                  simp [codeVal, beq_iff_eq, h1, h2, h3, h4, h5, h6]

/-- Unrecognized elements act as identity steps of the fold, provided their
series has the required entry (otherwise the read of `.parameter` throws). -/
lemma processElems_filter (i : Nat) :
    ∀ (we : List WeatherElement) (f : Forecast),
      (∀ e ∈ we, recognizedCode e.elementName = false → ∃ t, e.time[i]? = some t) →
      processElems i we f =
        processElems i (we.filter (fun e => recognizedCode e.elementName)) f := by
  intro we
  induction we with
  | nil => intro f _; rfl
  | cons e rest ih =>
    intro f hcov
    by_cases hrec : recognizedCode e.elementName = true
    · have hfil : (e :: rest).filter (fun e2 => recognizedCode e2.elementName) =
          e :: rest.filter (fun e2 => recognizedCode e2.elementName) := by
        simp [List.filter_cons, hrec]
      rw [hfil]
      cases ht : e.time[i]? with
      | none => simp [processElems, applyElement, ht]
      | some t =>
        simp [processElems, applyElement, ht]
        exact ih _ (fun e2 hm => hcov e2 (List.mem_cons_of_mem e hm))
    · have hrecF : recognizedCode e.elementName = false := by
        simpa using hrec
      obtain ⟨t, ht⟩ := hcov e (List.mem_cons_self e rest) hrecF
      have hfil : (e :: rest).filter (fun e2 => recognizedCode e2.elementName) =
          rest.filter (fun e2 => recognizedCode e2.elementName) := by
        simp [List.filter_cons, hrecF]
      rw [hfil]
      simp [processElems, applyElement, ht, applyCode_unrec f e.elementName _ hrecF]
      exact ih f (fun e2 hm => hcov e2 (List.mem_cons_of_mem e hm))

/-! ### Helper lemmas about the interval loop -/

lemma forIntervals_ok_of (we : List WeatherElement) (e0 : WeatherElement) :
    ∀ l : List Nat,
      (∀ i ∈ l, ∃ f, processInterval we e0 i = .ok f) →
      ∃ fs, forIntervals we e0 l = .ok fs := by
  intro l
  induction l with
  | nil => intro _; exact ⟨[], rfl⟩
  | cons i rest ih =>
    intro hall
    obtain ⟨f, hf⟩ := hall i (List.mem_cons_self i rest)
    obtain ⟨fs, hfs⟩ := ih (fun j hj => hall j (List.mem_cons_of_mem i hj))
    exact ⟨f :: fs, by simp [forIntervals, hf, hfs]⟩

lemma forIntervals_length (we : List WeatherElement) (e0 : WeatherElement) :
    ∀ (l : List Nat) (fs : List Forecast),
      forIntervals we e0 l = .ok fs → fs.length = l.length := by
  intro l
  induction l with
  | nil => intro fs h; simp [forIntervals] at h; simp [← h]
  | cons i rest ih =>
    intro fs h
    cases hf : processInterval we e0 i with
    | error m => simp [forIntervals, hf] at h
    | ok f =>
      cases hfs : forIntervals we e0 rest with
      | error m => simp [forIntervals, hf, hfs] at h
      | ok fs2 =>
        simp [forIntervals, hf, hfs] at h
        simp [← h, ih fs2 hfs]

lemma forIntervals_get (we : List WeatherElement) (e0 : WeatherElement) :
    ∀ (l : List Nat) (fs : List Forecast),
      forIntervals we e0 l = .ok fs →
      ∀ (k i : Nat), l[k]? = some i →
        ∃ f, fs[k]? = some f ∧ processInterval we e0 i = .ok f := by
  intro l
  induction l with
  | nil => intro fs _ k i hk; simp at hk
  | cons j rest ih =>
    intro fs h k i hk
    cases hf : processInterval we e0 j with
    | error m => simp [forIntervals, hf] at h
    | ok f =>
      cases hfs : forIntervals we e0 rest with
      | error m => simp [forIntervals, hf, hfs] at h
      | ok fs2 =>
        simp [forIntervals, hf, hfs] at h
        subst h
        cases k with
        | zero => simp at hk; exact ⟨f, by simp, hk ▸ hf⟩
        | succ k2 =>
          simp at hk
          obtain ⟨f2, h1, h2⟩ := ih fs2 hfs k2 i hk
          exact ⟨f2, by simpa using h1, h2⟩

lemma forIntervals_mem (we : List WeatherElement) (e0 : WeatherElement) :
    ∀ (l : List Nat) (fs : List Forecast),
      forIntervals we e0 l = .ok fs →
      ∀ f ∈ fs, ∃ i ∈ l, processInterval we e0 i = .ok f := by
  intro l
  induction l with
  | nil => intro fs h f hf; simp [forIntervals] at h; subst h; simp at hf
  | cons j rest ih =>
    intro fs h f hf
    cases hj : processInterval we e0 j with
    | error m => simp [forIntervals, hj] at h
    | ok f1 =>
      cases hfs : forIntervals we e0 rest with
      | error m => simp [forIntervals, hj, hfs] at h
      | ok fs2 =>
        simp [forIntervals, hj, hfs] at h
        subst h
        rcases List.mem_cons.mp hf with heq | hmem
        · exact ⟨j, List.mem_cons_self j rest, heq ▸ hj⟩
        · obtain ⟨i, h1, h2⟩ := ih fs2 hfs f hmem
          exact ⟨i, List.mem_cons_of_mem j h1, h2⟩

lemma forIntervals_congr (we we2 : List WeatherElement) (e0 e02 : WeatherElement) :
    ∀ l : List Nat,
      (∀ i ∈ l, processInterval we e0 i = processInterval we2 e02 i) →
      forIntervals we e0 l = forIntervals we2 e02 l := by
  intro l
  induction l with
  | nil => intro _; rfl
  | cons i rest ih =>
    intro hall
    have h1 := hall i (List.mem_cons_self i rest)
    have h2 := ih (fun j hj => hall j (List.mem_cons_of_mem i hj))
    simp [forIntervals, ← h1, ← h2]

lemma forIntervals_error_const (we : List WeatherElement) (e0 : WeatherElement)
    (C : String) :
    ∀ l : List Nat,
      (∀ i ∈ l, (∃ f, processInterval we e0 i = .ok f) ∨
        processInterval we e0 i = .error C) →
      (∃ i ∈ l, processInterval we e0 i = .error C) →
      forIntervals we e0 l = .error C := by
  intro l
  induction l with
  | nil => intro _ hex; simp at hex
  | cons j rest ih =>
    intro hall ⟨i, hmem, herr⟩
    cases hj : processInterval we e0 j with
    | error m =>
      have h2 : m = C := by
        rcases hall j (List.mem_cons_self j rest) with ⟨f, hf⟩ | he
        · rw [hf] at hj; cases hj
        · rw [hj] at he; exact (Except.error.injEq _ _).mp he
      subst h2
      simp [forIntervals, hj]
    | ok f =>
      have : forIntervals we e0 rest = .error C := by
        rcases List.mem_cons.mp hmem with heq | hmem2
        · subst heq; simp [hj] at herr
        · exact ih (fun i2 h2 => hall i2 (List.mem_cons_of_mem j h2)) ⟨i, hmem2, herr⟩
      simp [forIntervals, hj, this]

/-! ### Lemmas about one loop iteration and the whole normalizer -/

lemma initForecast_ok (e0 : WeatherElement) (i : Nat) (hi : i < e0.time.length) :
    ∃ t0, e0.time[i]? = some t0 ∧ initForecast e0 i = .ok
      { startTime := t0.startTime, endTime := t0.endTime, weather := "", rain := "",
        minTemp := "", maxTemp := "", comfort := "", windSpeed := "" } := by
  cases h : e0.time[i]? with
  | none =>
    rw [List.getElem?_eq_none_iff] at h
    omega
  | some t0 => exact ⟨t0, rfl, by simp [initForecast, h]⟩

lemma processInterval_ok_of (we : List WeatherElement) (e0 : WeatherElement)
    (i : Nat) (hi : i < e0.time.length)
    (hcov : ∀ e ∈ we, ∃ t, e.time[i]? = some t) :
    ∃ f, processInterval we e0 i = .ok f := by
  obtain ⟨t0, _, hinit⟩ := initForecast_ok e0 i hi
  obtain ⟨g, hg⟩ := processElems_ok_of i we
    { startTime := t0.startTime, endTime := t0.endTime, weather := "", rain := "",
      minTemp := "", maxTemp := "", comfort := "", windSpeed := "" } hcov
  exact ⟨g, by simp [processInterval, hinit, hg]⟩

lemma processInterval_ok_or_error (we : List WeatherElement) (e0 : WeatherElement)
    (i : Nat) (hi : i < e0.time.length) :
    (∃ f, processInterval we e0 i = .ok f) ∨
      processInterval we e0 i = .error cannotReadParameterMsg := by
  cases hP : processInterval we e0 i with
  | ok f => exact .inl ⟨f, rfl⟩
  | error m =>
    right
    obtain ⟨t0, _, hinit⟩ := initForecast_ok e0 i hi
    have hP2 := hP
    simp [processInterval, hinit] at hP2
    rw [processElems_error_val i we _ m hP2]

lemma processInterval_error_missing (we : List WeatherElement) (e0 : WeatherElement)
    (i : Nat) (hi : i < e0.time.length)
    (hmiss : ∃ e ∈ we, e.time[i]? = none) :
    processInterval we e0 i = .error cannotReadParameterMsg := by
  obtain ⟨t0, _, hinit⟩ := initForecast_ok e0 i hi
  simp [processInterval, hinit]
  exact processElems_error_of i we _ hmiss

lemma normalizeForecasts_eq (we : List WeatherElement) (e0 : WeatherElement)
    (h0 : we[0]? = some e0) :
    normalizeForecasts we = forIntervals we e0 (List.range e0.time.length) := by
  simp [normalizeForecasts, h0]

lemma normalizeForecasts_ok_parts (we : List WeatherElement) (e0 : WeatherElement)
    (h0 : we[0]? = some e0)
    (hcov : ∀ e ∈ we, e0.time.length ≤ e.time.length) :
    ∃ fs, normalizeForecasts we = .ok fs ∧ fs.length = e0.time.length := by
  have hok : ∀ i ∈ List.range e0.time.length, ∃ f, processInterval we e0 i = .ok f := by
    intro i hi
    rw [List.mem_range] at hi
    refine processInterval_ok_of we e0 i hi (fun e hm => ?_)
    cases h : e.time[i]? with
    | none =>
      rw [List.getElem?_eq_none_iff] at h
      have := hcov e hm
      omega
    | some t => exact ⟨t, rfl⟩
  obtain ⟨fs, hfs⟩ := forIntervals_ok_of we e0 _ hok
  refine ⟨fs, ?_, ?_⟩
  · rw [normalizeForecasts_eq we e0 h0]; exact hfs
  · rw [forIntervals_length we e0 _ fs hfs]; simp

lemma normalizeForecasts_error_short (we : List WeatherElement) (e0 : WeatherElement)
    (h0 : we[0]? = some e0)
    (hshort : ∃ e ∈ we, e.time.length < e0.time.length) :
    normalizeForecasts we = .error cannotReadParameterMsg := by
  obtain ⟨e, hmem, hlen⟩ := hshort
  rw [normalizeForecasts_eq we e0 h0]
  refine forIntervals_error_const we e0 _ _ ?_ ?_
  · intro i hi
    rw [List.mem_range] at hi
    exact processInterval_ok_or_error we e0 i hi
  · refine ⟨e.time.length, ?_, ?_⟩
    · rw [List.mem_range]; omega
    · exact processInterval_error_missing we e0 _ hlen
        ⟨e, hmem, List.getElem?_eq_none (Nat.le_refl _)⟩

lemma processElems_truncate (i L : Nat) (hi : i < L) :
    ∀ (we : List WeatherElement) (f : Forecast),
      processElems i (we.map (fun e => { e with time := e.time.take L })) f =
        processElems i we f := by
  intro we
  induction we with
  | nil => intro f; rfl
  | cons e rest ih =>
    intro f
    cases ht : e.time[i]? with
    | none =>
      simp [processElems, applyElement, ht, List.getElem?_take_of_lt hi]
    | some t =>
      simp [processElems, applyElement, ht, List.getElem?_take_of_lt hi]
      exact ih _

/-- The loop reads no entry of any element beyond the first element's series
length: truncating every series there leaves the output unchanged. -/
lemma normalizeForecasts_truncate (we : List WeatherElement) (e0 : WeatherElement)
    (h0 : we[0]? = some e0) :
    normalizeForecasts we =
      normalizeForecasts
        (we.map (fun e => { e with time := e.time.take e0.time.length })) := by
  have h0m : (we.map (fun e => { e with time := e.time.take e0.time.length }))[0]? =
      some { e0 with time := e0.time.take e0.time.length } := by
    simp [h0]
  rw [normalizeForecasts_eq we e0 h0, normalizeForecasts_eq _ _ h0m]
  have hlen : ({ e0 with time := e0.time.take e0.time.length } :
      WeatherElement).time.length = e0.time.length := by
    simp
  rw [hlen]
  refine forIntervals_congr we _ e0 _ _ (fun i hi => ?_)
  rw [List.mem_range] at hi
  have hinit2 : initForecast { e0 with time := e0.time.take e0.time.length } i =
      initForecast e0 i := by
    simp [initForecast, List.getElem?_take_of_lt hi]
  unfold processInterval
  rw [hinit2]
  cases hinit : initForecast e0 i with
  | error m => rfl
  | ok f => exact (processElems_truncate i e0.time.length hi we f).symm

lemma append_ne_empty (v w : String) (hw : w.length ≠ 0) : v ++ w ≠ "" := by
  intro h
  have hlen := congrArg String.length h
  rw [String.length_append] at hlen
  have h0 : ("" : String).length = 0 := rfl
  rw [h0] at hlen
  omega

/-- A semantic field whose code occurs among the elements ends up non-empty,
provided the value its switch branch computes is never empty at this index. -/
lemma processElems_field (sel : Forecast → String) (code : String) (tr : String → String)
    (hne : ∀ (f : Forecast) (c v : String), c ≠ code → sel (applyCode f c v) = sel f)
    (hset : ∀ (f : Forecast) (v : String), sel (applyCode f code v) = tr v)
    (i : Nat) (we : List WeatherElement) (f g : Forecast)
    (hpe : processElems i we f = .ok g)
    (hmem : ∃ e ∈ we, e.elementName = code)
    (htr : ∀ e ∈ we, e.elementName = code → ∀ t, e.time[i]? = some t →
      tr t.parameter.parameterName ≠ "") :
    sel g ≠ "" := by
  obtain ⟨e1, hm1, hc1⟩ := hmem
  refine processElems_establish (fun f2 => sel f2 ≠ "") i we f g ?_ ?_ hpe
  · intro f2 e t hm ht hP
    show sel (applyCode f2 e.elementName t.parameter.parameterName) ≠ ""
    by_cases hc : e.elementName = code
    · rw [hc, hset]
      exact htr e hm hc t ht
    · rw [hne f2 e.elementName t.parameter.parameterName hc]
      exact hP
  · refine ⟨e1, hm1, fun f2 t ht => ?_⟩
    show sel (applyCode f2 e1.elementName t.parameter.parameterName) ≠ ""
    rw [hc1, hset]
    exact htr e1 hm1 hc1 t ht

/-! ### Claim theorems -/

/-- C2: the error mapping is total.  Every invocation of a city handler sends
exactly one HTTP response: the success envelope when `getWeatherData` succeeds,
and exactly the mapped error response when it fails — no failure is silently
swallowed and no second response is sent for the same request. -/
theorem claim_c2_error_mapping_total (cityKey : String) (apiKey : Option String)
    (transport : Except JsError RawResponse) :
    ∃ r, getCityWeather cityKey apiKey transport = [r] ∧
      ((∃ w, getWeatherData apiKey ((CITY_MAP cityKey).getD "undefined") transport =
          .ok w ∧ r = ⟨200, .success w⟩) ∨
        (∃ e, getWeatherData apiKey ((CITY_MAP cityKey).getD "undefined") transport =
          .error e ∧ r = mapError e)) := by
  cases h : getWeatherData apiKey ((CITY_MAP cityKey).getD "undefined") transport with
  | ok w =>
    exact ⟨⟨200, .success w⟩, by simp [getCityWeather, h], .inl ⟨w, rfl, rfl⟩⟩
  | error e =>
    exact ⟨mapError e, by simp [getCityWeather, h], .inr ⟨e, rfl, rfl⟩⟩

/-- C4: a transport failure with upstream status 503 and body
`{message: "maintenance"}` yields a response with status 503, the
upstream-API-error tag, message "maintenance" and the raw upstream body as
`details`; when the upstream body carries no message the generic fallback is
used instead. -/
theorem claim_c4_upstream_passthrough (cityKey : String) (apiKey : Option String)
    (hkey : isFalsy apiKey = false) (m : String) (extra : List (String × String)) :
    getCityWeather cityKey apiKey
        (.error (.withResponse m 503 ⟨some "maintenance", extra⟩)) =
      [⟨503, .failure "CWA API 錯誤" "maintenance" (some ⟨some "maintenance", extra⟩)⟩] ∧
    ∀ (st : Nat) (body : UpstreamBody), body.message = none →
      getCityWeather cityKey apiKey (.error (.withResponse m st body)) =
        [⟨st, .failure "CWA API 錯誤" "無法取得天氣資料" (some body)⟩] := by
  constructor
  · simp [getCityWeather, getWeatherData, hkey, mapError, jsOr]
  · intro st body hb
    simp [getCityWeather, getWeatherData, hkey, mapError, jsOr, hb]

/-- Witness for C4 at a concrete upstream failure. -/
theorem claim_c4_upstream_passthrough_witness :
    getCityWeather "taipei" (some "key")
        (.error (.withResponse "Request failed" 503 ⟨some "maintenance", []⟩)) =
      [⟨503, .failure "CWA API 錯誤" "maintenance" (some ⟨some "maintenance", []⟩)⟩] :=
  (claim_c4_upstream_passthrough "taipei" (some "key") rfl "Request failed" []).1

/-- C5: with no API credential configured (or an empty one), `getWeatherData`
fails with the missing-credential error for every transport — so no upstream
call is consulted — and the client sees a 500 server-error envelope carrying
that message. -/
theorem claim_c5_missing_credential (apiKey : Option String)
    (hkey : isFalsy apiKey = true) :
    (∀ (cityName : String) (t : Except JsError RawResponse),
      getWeatherData apiKey cityName t = .error (.plain missingKeyMsg)) ∧
    (∀ (cityKey : String) (t : Except JsError RawResponse),
      getCityWeather cityKey apiKey t =
        [⟨500, .failure "伺服器錯誤" missingKeyMsg none⟩]) ∧
    (∀ (cityName : String) (t t2 : Except JsError RawResponse),
      getWeatherData apiKey cityName t = getWeatherData apiKey cityName t2) := by
  refine ⟨fun cityName t => by simp [getWeatherData, hkey], fun cityKey t => ?_,
    fun c t t2 => by simp [getWeatherData, hkey]⟩
  simp [getCityWeather, getWeatherData, hkey, mapError, jsOr, missingKeyMsg]

/-- Witness for C5 with the credential absent. -/
theorem claim_c5_missing_credential_witness :
    getCityWeather "taipei" none (.ok emptyResp) =
      [⟨500, .failure "伺服器錯誤" missingKeyMsg none⟩] :=
  (claim_c5_missing_credential none rfl).2.1 "taipei" (.ok emptyResp)

/-- C10: a matched location record with an empty weatherElement collection
makes the normalizer throw (reading `.time` of `undefined`), the client gets a
500 generic envelope, and successful normalization indeed requires at least one
weather element. -/
theorem claim_c10_empty_elements (apiKey : Option String) (cityKey : String)
    (resp : RawResponse) (loc : LocationData)
    (hkey : isFalsy apiKey = false)
    (hloc : resp.records.location[0]? = some loc)
    (hempty : loc.weatherElement = []) :
    getWeatherData apiKey ((CITY_MAP cityKey).getD "undefined") (.ok resp) =
        .error (.plain cannotReadTimeMsg) ∧
    getCityWeather cityKey apiKey (.ok resp) =
        [⟨500, .failure "伺服器錯誤" cannotReadTimeMsg none⟩] ∧
    ∀ (we : List WeatherElement) (fs : List Forecast),
      normalizeForecasts we = .ok fs → we ≠ [] := by
  have h1 : getWeatherData apiKey ((CITY_MAP cityKey).getD "undefined") (.ok resp) =
      .error (.plain cannotReadTimeMsg) := by
    simp [getWeatherData, hkey, hloc, hempty, normalizeForecasts]
  refine ⟨h1, ?_, ?_⟩
  · simp [getCityWeather, h1, mapError, jsOr, cannotReadTimeMsg]
  · intro we fs h hwe
    subst hwe
    simp [normalizeForecasts] at h

/-- Witness for C10 at a concrete element-free record. -/
theorem claim_c10_empty_elements_witness :
    getCityWeather "taipei" (some "key") (.ok emptyElemResp) =
      [⟨500, .failure "伺服器錯誤" cannotReadTimeMsg none⟩] :=
  (claim_c10_empty_elements (some "key") "taipei" emptyElemResp ⟨"臺北市", []⟩
    rfl rfl rfl).2.1

/-- C1 counterexample: the code never checks that the location record matches
the requested locale — it uses `location[0]` as-is.  Here the requested city is
臺北市 ("taipei"), the response contains only a 高雄市 record, and the handler
answers 200 with the 高雄市 forecast instead of failing with a 500. -/
theorem claim_c1_counterexample :
    kaoResp.records.location.map LocationData.locationName = ["高雄市"] ∧
    getCityWeather "taipei" (some "key") (.ok kaoResp) =
      [⟨200, .success ⟨"高雄市", "desc", [⟨"s1", "e1", "晴", "", "", "", "", ""⟩]⟩⟩] := by
  exact ⟨rfl, rfl⟩

/-- C1 (amended): only when the location collection is empty (so `location[0]`
is undefined) does `getWeatherData` fail, with an error naming the requested
city, and the client-visible response is a 500 whose message names the city.  A
non-empty collection is consumed via its first record without any check that it
matches the requested locale. -/
theorem claim_c1_amended (apiKey : Option String) (hkey : isFalsy apiKey = false)
    (cityName : String) (resp : RawResponse)
    (hresp : resp.records.location = []) :
    getWeatherData apiKey cityName (.ok resp) =
        .error (.plain ("無法取得" ++ cityName ++ "天氣資料")) ∧
    ∀ cityKey : String, (CITY_MAP cityKey).getD "undefined" = cityName →
      getCityWeather cityKey apiKey (.ok resp) =
        [⟨500, .failure "伺服器錯誤" ("無法取得" ++ cityName ++ "天氣資料") none⟩] := by
  have hne : ("無法取得" ++ cityName ++ "天氣資料") ≠ "" := by
    intro hcontra
    have hlen := congrArg String.length hcontra
    simp [String.length_append] at hlen
    exact absurd hlen.1.1 (by decide)
  have h1 : getWeatherData apiKey cityName (.ok resp) =
      .error (.plain ("無法取得" ++ cityName ++ "天氣資料")) := by
    simp [getWeatherData, hkey, hresp]
  refine ⟨h1, fun cityKey hck => ?_⟩
  rw [getCityWeather, hck, h1]
  simp [mapError, jsOr, beq_iff_eq, hne]

/-- Witness for C1's amended statement at an empty location collection. -/
theorem claim_c1_amended_witness :
    getWeatherData (some "key") "臺北市" (.ok emptyResp) =
      .error (.plain ("無法取得" ++ "臺北市" ++ "天氣資料")) :=
  (claim_c1_amended (some "key") rfl "臺北市" emptyResp rfl).1

/-- C8 counterexample: looking up a key outside the six-element set yields
`undefined` and no ConfigurationError is raised — the handler proceeds and can
even answer 200 (here with whatever record the upstream returned first). -/
theorem claim_c8_counterexample :
    ("paris" ∉ cityKeys) ∧ CITY_MAP "paris" = none ∧
    getCityWeather "paris" (some "key") (.ok kaoResp) =
      [⟨200, .success ⟨"高雄市", "desc", [⟨"s1", "e1", "晴", "", "", "", "", ""⟩]⟩⟩] := by
  exact ⟨by decide, rfl, rfl⟩

/-- C8 (amended): each of the six defined city keys resolves to its non-empty
locale name; any other key resolves to `undefined` and the handler proceeds
with the undefined name (no ConfigurationError exists in the code), surfacing
at best as a downstream 500 naming "undefined". -/
theorem claim_c8_amended :
    (∀ k ∈ cityKeys, ∃ n, CITY_MAP k = some n ∧ n ≠ "") ∧
    (∀ k : String, k ∉ cityKeys → CITY_MAP k = none) ∧
    (∀ (k : String) (apiKey : Option String) (resp : RawResponse),
      k ∉ cityKeys → isFalsy apiKey = false → resp.records.location = [] →
      getCityWeather k apiKey (.ok resp) =
        [⟨500, .failure "伺服器錯誤" ("無法取得" ++ "undefined" ++ "天氣資料") none⟩]) := by
  have hmap : ∀ k : String, k ∉ cityKeys → CITY_MAP k = none := by
    intro k hk
    simp [cityKeys] at hk
    obtain ⟨h1, h2, h3, h4, h5, h6⟩ := hk
    unfold CITY_MAP
    split <;> simp_all
  refine ⟨?_, hmap, ?_⟩
  · intro k hk
    fin_cases hk <;> exact ⟨_, rfl, by decide⟩
  · intro k apiKey resp hk hkey hresp
    rw [getCityWeather, hmap k hk]
    have h1 : getWeatherData apiKey "undefined" (.ok resp) =
        .error (.plain ("無法取得" ++ "undefined" ++ "天氣資料")) := by
      simp [getWeatherData, hkey, hresp]
    rw [Option.getD_none, h1]
    simp [mapError, jsOr]

/-- Witness for C8's amended statement: a defined key resolves, an undefined
key flows into the fetch as "undefined". -/
theorem claim_c8_amended_witness :
    (∃ n, CITY_MAP "taipei" = some n ∧ n ≠ "") ∧
    getCityWeather "paris" (some "key") (.ok emptyResp) =
      [⟨500, .failure "伺服器錯誤" ("無法取得" ++ "undefined" ++ "天氣資料") none⟩] :=
  ⟨claim_c8_amended.1 "taipei" (by decide),
    claim_c8_amended.2.2 "paris" (some "key") emptyResp (by decide) rfl rfl⟩

/-- C3 counterexample: "all six semantic fields non-empty" fails when an
element's parameter value is itself empty.  All six codes are present at every
(the single) index, yet the produced interval's weather field is empty because
the Wx value is the empty string. -/
theorem claim_c3_counterexample :
    (["Wx", "PoP", "MinT", "MaxT", "CI", "WS"].all
      (fun c => sixElems.any (fun e => e.elementName == c && e.time.length == 1))) = true ∧
    normalizeForecasts sixElems =
      .ok [⟨"s1", "e1", "", "30%", "20°C", "25°C", "舒適", "3"⟩] := by
  exact ⟨rfl, rfl⟩

/-- C3 (amended): with all six codes present, every element covering the first
element's N indices, and every parameter value non-empty, the normalizer
returns exactly N intervals in upstream index order with all six semantic
fields non-empty (with empty parameter values, a text field such as weather
can be empty, as the counterexample shows). -/
theorem claim_c3_amended (apiKey : Option String) (cityName : String)
    (resp : RawResponse) (loc : LocationData) (e0 : WeatherElement)
    (hkey : isFalsy apiKey = false)
    (hloc : resp.records.location[0]? = some loc)
    (h0 : loc.weatherElement[0]? = some e0)
    (hcov : ∀ e ∈ loc.weatherElement, e0.time.length ≤ e.time.length)
    (hcodes : ∀ c ∈ ["Wx", "PoP", "MinT", "MaxT", "CI", "WS"],
      ∃ e ∈ loc.weatherElement, e.elementName = c)
    (hval : ∀ e ∈ loc.weatherElement, ∀ t ∈ e.time, t.parameter.parameterName ≠ "") :
    ∃ fs, getWeatherData apiKey cityName (.ok resp) =
        .ok ⟨loc.locationName, resp.records.datasetDescription, fs⟩ ∧
      fs.length = e0.time.length ∧
      (∀ k : Nat,
        (fs[k]?).map Forecast.startTime = (e0.time[k]?).map TimeEntry.startTime ∧
        (fs[k]?).map Forecast.endTime = (e0.time[k]?).map TimeEntry.endTime) ∧
      (∀ f ∈ fs, f.weather ≠ "" ∧ f.rain ≠ "" ∧ f.minTemp ≠ "" ∧
        f.maxTemp ≠ "" ∧ f.comfort ≠ "" ∧ f.windSpeed ≠ "") := by
  obtain ⟨fs, hfs, hlen⟩ := normalizeForecasts_ok_parts loc.weatherElement e0 h0 hcov
  have hfi : forIntervals loc.weatherElement e0 (List.range e0.time.length) = .ok fs := by
    rw [← normalizeForecasts_eq loc.weatherElement e0 h0]
    exact hfs
  refine ⟨fs, ?_, hlen, ?_, ?_⟩
  · simp [getWeatherData, hkey, hloc, hfs]
  · intro k
    by_cases hk : k < e0.time.length
    · obtain ⟨f, hfk, hpi⟩ := forIntervals_get loc.weatherElement e0 _ fs hfi k k
        (List.getElem?_range hk)
      obtain ⟨t0, ht0, hinit⟩ := initForecast_ok e0 k hk
      have hpe : processElems k loc.weatherElement
          { startTime := t0.startTime, endTime := t0.endTime, weather := "", rain := "",
            minTemp := "", maxTemp := "", comfort := "", windSpeed := "" } = .ok f := by
        simp [processInterval, hinit] at hpi
        exact hpi
      have hs : f.startTime = t0.startTime :=
        processElems_pres (fun f2 => f2.startTime = t0.startTime) k _ _ f
          (fun f2 e t _ _ hP => by
            show (applyCode f2 e.elementName t.parameter.parameterName).startTime =
              t0.startTime
            rw [applyCode_startTime]
            exact hP) rfl hpe
      have he : f.endTime = t0.endTime :=
        processElems_pres (fun f2 => f2.endTime = t0.endTime) k _ _ f
          (fun f2 e t _ _ hP => by
            show (applyCode f2 e.elementName t.parameter.parameterName).endTime =
              t0.endTime
            rw [applyCode_endTime]
            exact hP) rfl hpe
      rw [hfk, ht0]
      simp [hs, he]
    · have h1 : fs[k]? = none := by
        rw [List.getElem?_eq_none_iff, hlen]
        omega
      have h2 : e0.time[k]? = none := by
        rw [List.getElem?_eq_none_iff]
        omega
      simp [h1, h2]
  · intro f hf
    obtain ⟨i, hi, hpi⟩ := forIntervals_mem loc.weatherElement e0 _ fs hfi f hf
    rw [List.mem_range] at hi
    obtain ⟨t0, ht0, hinit⟩ := initForecast_ok e0 i hi
    have hpe : processElems i loc.weatherElement
        { startTime := t0.startTime, endTime := t0.endTime, weather := "", rain := "",
          minTemp := "", maxTemp := "", comfort := "", windSpeed := "" } = .ok f := by
      simp [processInterval, hinit] at hpi
      exact hpi
    refine ⟨?_, ?_, ?_, ?_, ?_, ?_⟩
    · exact processElems_field (fun f2 => f2.weather) "Wx" (fun v => v)
        (fun f2 c v hc => by unfold applyCode; split <;> simp_all)
        (fun f2 v => rfl) i _ _ f hpe (hcodes "Wx" (by simp))
        (fun e hm _ t ht => hval e hm t (List.getElem?_mem ht))
    · exact processElems_field (fun f2 => f2.rain) "PoP" (fun v => v ++ "%")
        (fun f2 c v hc => by unfold applyCode; split <;> simp_all)
        (fun f2 v => rfl) i _ _ f hpe (hcodes "PoP" (by simp))
        (fun e hm _ t ht => append_ne_empty _ "%" (by decide))
    · exact processElems_field (fun f2 => f2.minTemp) "MinT" (fun v => v ++ "°C")
        (fun f2 c v hc => by unfold applyCode; split <;> simp_all)
        (fun f2 v => rfl) i _ _ f hpe (hcodes "MinT" (by simp))
        (fun e hm _ t ht => append_ne_empty _ "°C" (by decide))
    · exact processElems_field (fun f2 => f2.maxTemp) "MaxT" (fun v => v ++ "°C")
        (fun f2 c v hc => by unfold applyCode; split <;> simp_all)
        (fun f2 v => rfl) i _ _ f hpe (hcodes "MaxT" (by simp))
        (fun e hm _ t ht => append_ne_empty _ "°C" (by decide))
    · exact processElems_field (fun f2 => f2.comfort) "CI" (fun v => v)
        (fun f2 c v hc => by unfold applyCode; split <;> simp_all)
        (fun f2 v => rfl) i _ _ f hpe (hcodes "CI" (by simp))
        (fun e hm _ t ht => hval e hm t (List.getElem?_mem ht))
    · exact processElems_field (fun f2 => f2.windSpeed) "WS" (fun v => v)
        (fun f2 c v hc => by unfold applyCode; split <;> simp_all)
        (fun f2 v => rfl) i _ _ f hpe (hcodes "WS" (by simp))
        (fun e hm _ t ht => hval e hm t (List.getElem?_mem ht))

/-- Witness for C3's amended statement on a complete six-element response. -/
theorem claim_c3_amended_witness :
    ∃ fs, getWeatherData (some "key") "臺北市" (.ok goodResp) =
        .ok ⟨"臺北市", "desc", fs⟩ ∧ fs.length = 1 := by
  obtain ⟨fs, h1, h2, _, _⟩ := claim_c3_amended (some "key") "臺北市" goodResp
    ⟨"臺北市", sixGood⟩ ⟨"Wx", [⟨"s1", "e1", ⟨"晴"⟩⟩]⟩ rfl rfl rfl
    (by decide) (by decide) (by decide)
  exact ⟨fs, h1, h2⟩

/-- C6 counterexample: under the alignment invariant alone, reordering elements
can change the output — with two elements both coded Wx (aligned, same
boundaries), the later one wins, so swapping them changes the weather field. -/
theorem claim_c6_counterexample :
    aligned [wxA, wxB] ∧ ([wxA, wxB] : List WeatherElement).Perm [wxB, wxA] ∧
    normalizeForecasts [wxA, wxB] ≠ normalizeForecasts [wxB, wxA] :=
  ⟨by decide, List.Perm.swap wxB wxA [], by decide⟩

/-- C6 (amended): for aligned elements with pairwise-distinct codes, any
permutation of the element order leaves the normalizer's output unchanged —
dispatch is by code, and with distinct codes each field is determined by its
code's unique element. -/
theorem claim_c6_amended (we we2 : List WeatherElement)
    (hperm : we.Perm we2) (hal : aligned we)
    (hnd : (we.map WeatherElement.elementName).Nodup) :
    normalizeForecasts we = normalizeForecasts we2 := by
  cases we with
  | nil =>
    cases we2 with
    | nil => rfl
    | cons a l =>
      have hl := hperm.length_eq
      simp at hl
  | cons e0 rest =>
    cases we2 with
    | nil =>
      have hl := hperm.length_eq
      simp at hl
    | cons e02 rest2 =>
      have hm0 : e0 ∈ e0 :: rest := List.mem_cons_self e0 rest
      have hm02 : e02 ∈ e0 :: rest := hperm.mem_iff.mpr (List.mem_cons_self e02 rest2)
      obtain ⟨hLen, hbnd⟩ := hal e0 hm0 e02 hm02
      have hnd2 : ((e02 :: rest2).map WeatherElement.elementName).Nodup :=
        ((hperm.map WeatherElement.elementName).nodup_iff).mp hnd
      rw [normalizeForecasts_eq (e0 :: rest) e0 (by simp),
        normalizeForecasts_eq (e02 :: rest2) e02 (by simp), ← hLen]
      refine forIntervals_congr _ _ e0 e02 _ (fun i hi => ?_)
      rw [List.mem_range] at hi
      have hi2 : i < e02.time.length := by omega
      have hcov : ∀ e ∈ e0 :: rest, ∃ t, e.time[i]? = some t := by
        intro e hm
        have hLe := (hal e0 hm0 e hm).1
        cases h : e.time[i]? with
        | none =>
          rw [List.getElem?_eq_none_iff] at h
          omega
        | some t => exact ⟨t, rfl⟩
      have hcov2 : ∀ e ∈ e02 :: rest2, ∃ t, e.time[i]? = some t :=
        fun e hm => hcov e (hperm.mem_iff.mpr hm)
      obtain ⟨f, hf⟩ := processInterval_ok_of (e0 :: rest) e0 i hi hcov
      obtain ⟨f2, hf2⟩ := processInterval_ok_of (e02 :: rest2) e02 i hi2 hcov2
      rw [hf, hf2]
      obtain ⟨t0, ht0, hinit⟩ := initForecast_ok e0 i hi
      obtain ⟨t02, ht02, hinit2⟩ := initForecast_ok e02 i hi2
      obtain ⟨hstM, henM⟩ := hbnd i hi
      have hst : t0.startTime = t02.startTime := by simpa [ht0, ht02] using hstM
      have hen : t0.endTime = t02.endTime := by simpa [ht0, ht02] using henM
      have hpe : processElems i (e0 :: rest)
          { startTime := t0.startTime, endTime := t0.endTime, weather := "", rain := "",
            minTemp := "", maxTemp := "", comfort := "", windSpeed := "" } = .ok f := by
        simp [processInterval, hinit] at hf
        exact hf
      have hpe2 : processElems i (e02 :: rest2)
          { startTime := t02.startTime, endTime := t02.endTime, weather := "", rain := "",
            minTemp := "", maxTemp := "", comfort := "", windSpeed := "" } = .ok f2 := by
        simp [processInterval, hinit2] at hf2
        exact hf2
      have hcanon := processElems_canon i (e0 :: rest) _ f hnd hpe
      have hcanon2 := processElems_canon i (e02 :: rest2) _ f2 hnd2 hpe2
      have hcv : ∀ c, codeVal (e0 :: rest) c i = codeVal (e02 :: rest2) c i :=
        fun c => codeVal_perm c i _ _ hperm hnd
      rw [hcanon, hcanon2]
      simp [hcv "Wx", hcv "PoP", hcv "MinT", hcv "MaxT", hcv "CI", hcv "WS", hst, hen]

/-- Witness for C6's amended statement: swapping two distinct-code aligned
elements leaves the output unchanged. -/
theorem claim_c6_amended_witness :
    normalizeForecasts [wxA, popC] = normalizeForecasts [popC, wxA] :=
  claim_c6_amended [wxA, popC] [popC, wxA] (List.Perm.swap popC wxA [])
    (by decide) (by decide)

/-- C7 counterexample: an unrecognized element is not inert — its `i`-th time
entry is still read before the switch dispatches, so an unrecognized element
with a short series makes the normalizer fail, and removing it changes the
output from an error to a successful forecast. -/
theorem claim_c7_counterexample :
    recognizedCode "UVI" = false ∧
    normalizeForecasts [wx2, uvi1] = .error cannotReadParameterMsg ∧
    normalizeForecasts [wx2] =
      .ok [⟨"s1", "e1", "晴", "", "", "", "", ""⟩,
        ⟨"s2", "e2", "雨", "", "", "", "", ""⟩] := by
  exact ⟨rfl, rfl, rfl⟩

/-- C7 (amended): unrecognized elements populate no field and — provided each
unrecognized element's series covers the first element's interval count — cause
no failure: the output equals the output on the input with the unrecognized
elements removed (the first element being recognized).  An unrecognized element
with a shorter series does cause a failure, as the counterexample shows. -/
theorem claim_c7_amended (we : List WeatherElement) (e0 : WeatherElement)
    (h0 : we[0]? = some e0)
    (hrec : recognizedCode e0.elementName = true)
    (hcov : ∀ e ∈ we, recognizedCode e.elementName = false →
      e0.time.length ≤ e.time.length) :
    normalizeForecasts we =
      normalizeForecasts (we.filter (fun e => recognizedCode e.elementName)) := by
  cases we with
  | nil => simp at h0
  | cons e1 rest =>
    obtain rfl : e1 = e0 := by simpa using h0
    have hfil : (e1 :: rest).filter (fun e => recognizedCode e.elementName) =
        e1 :: rest.filter (fun e => recognizedCode e.elementName) := by
      simp [List.filter_cons, hrec]
    have h0f : ((e1 :: rest).filter (fun e => recognizedCode e.elementName))[0]? =
        some e1 := by
      rw [hfil]
      simp
    rw [normalizeForecasts_eq _ e1 h0, normalizeForecasts_eq _ e1 h0f]
    refine forIntervals_congr _ _ e1 e1 _ (fun i hi => ?_)
    rw [List.mem_range] at hi
    unfold processInterval
    cases hinit : initForecast e1 i with
    | error m => rfl
    | ok f =>
      refine processElems_filter i (e1 :: rest) f (fun e hm hrecF => ?_)
      have hLe := hcov e hm hrecF
      cases h : e.time[i]? with
      | none =>
        rw [List.getElem?_eq_none_iff] at h
        omega
      | some t => exact ⟨t, rfl⟩

/-- Witness for C7's amended statement: a covering unrecognized element can be
removed without changing the output. -/
theorem claim_c7_amended_witness :
    normalizeForecasts [wxA, uvi1] =
      normalizeForecasts ([wxA, uvi1].filter (fun e => recognizedCode e.elementName)) :=
  claim_c7_amended [wxA, uvi1] wxA rfl (by decide) (by decide)

/-- C9: an element whose series is strictly shorter than the first element's
makes the loop read a missing time entry — the normalizer fails with the
generic TypeError message rather than returning a misaligned forecast, and the
client receives a 500 generic envelope.  Conversely, entries beyond the first
element's interval count are never read: truncating every series to that count
leaves the output unchanged. -/
theorem claim_c9_short_series (apiKey : Option String) (cityKey : String)
    (resp : RawResponse) (loc : LocationData) (e0 : WeatherElement)
    (hkey : isFalsy apiKey = false)
    (hloc : resp.records.location[0]? = some loc)
    (h0 : loc.weatherElement[0]? = some e0)
    (hshort : ∃ e ∈ loc.weatherElement, e.time.length < e0.time.length) :
    normalizeForecasts loc.weatherElement = .error cannotReadParameterMsg ∧
    getCityWeather cityKey apiKey (.ok resp) =
      [⟨500, .failure "伺服器錯誤" cannotReadParameterMsg none⟩] ∧
    (∀ (we : List WeatherElement) (e1 : WeatherElement), we[0]? = some e1 →
      normalizeForecasts we =
        normalizeForecasts
          (we.map (fun e => { e with time := e.time.take e1.time.length }))) := by
  have h1 := normalizeForecasts_error_short loc.weatherElement e0 h0 hshort
  refine ⟨h1, ?_, fun we e1 h => normalizeForecasts_truncate we e1 h⟩
  simp [getCityWeather, getWeatherData, hkey, hloc, h1, mapError, jsOr,
    cannotReadParameterMsg]

/-- Witness for C9 at a concrete response with a short unrecognized series. -/
theorem claim_c9_short_series_witness :
    getCityWeather "taipei" (some "key") (.ok shortResp) =
      [⟨500, .failure "伺服器錯誤" cannotReadParameterMsg none⟩] :=
  (claim_c9_short_series (some "key") "taipei" shortResp ⟨"臺北市", [wx2, uvi1]⟩ wx2
    rfl rfl rfl (by decide)).2.1

end Cwa
